import Mathlib

/-!
Shallow embedding of the exchange-rate-service core (rate-access coordinator,
provider client, validation/conversion logic) from the Go source:
  internal/repository (rateRepository, OpenERAPIClient, Cache interface),
  internal/service (exchangeService, validateCurrencies, validateConversionRequest),
  internal/transport (makeGetHistoricalRatesEndpoint, parseDate),
  internal/errors (AppError, ErrorType),
  internal/models (domain entities).

Modelling conventions:
  * Go `float64` fields are modelled as `ℚ` (exact arithmetic; the code applies
    a single multiplication and copies fields verbatim, so no rounding model is
    needed).
  * Go `time.Time` instants (FetchedAt, timestamps) are abstract `Nat` ticks;
    calendar dates handled by `time.Parse("2006-01-02", _)` / `Format` are an
    explicit `Date` structure.
  * Go `time.Duration` is modelled in nanoseconds, as in Go.
  * Effectful calls (Redis cache Get/Set/Ping, HTTP round-trips) are supplied
    by environment records; each operation also returns a trace of `Event`s so
    that "the provider is called exactly once", "nothing was written to the
    cache", etc. are provable statements.
  * The cache's `Get(ctx, key, dest)` deserializes into a typed destination;
    the environment therefore exposes one typed get per destination type, each
    keyed by the cache key, returning either the deserialized value or an
    error (miss, connection failure and deserialization failure are all just
    `error`, exactly as the Go code treats them).
-/

/-- `internal/errors.ErrorType` -/
inductive ErrorType where
  | validation
  | notFound
  | unauthorized
  | forbidden
  | internal
  | provider
  | cache
  deriving DecidableEq, Repr

/-- Go `error` values as produced by this codebase: `fmt.Errorf` without `%w`
(`errorf`), `fmt.Errorf` wrapping a cause with `%w` (`wrapped`), and
`*errors.AppError` with a nil `Err` (`app`) or a non-nil `Err` (`appWrap`). -/
inductive GoErr where
  | errorf (msg : String)
  | wrapped (msg : String) (cause : GoErr)
  | app (t : ErrorType) (message details : String)
  | appWrap (t : ErrorType) (message : String) (cause : GoErr)
  deriving DecidableEq, Repr

/-- `errors.NewValidationError` -/
def NewValidationError (message details : String) : GoErr :=
  .app .validation message details

/-- `errors.NewProviderError` (defined in errors.go; the claims compare the
propagated errors against this shape) -/
def NewProviderError (message : String) (err : GoErr) : GoErr :=
  .appWrap .provider message err

/-- `errors.IsValidationError`: type-asserts to `*AppError` and checks
`Type == ErrorTypeValidation`. -/
def GoErr.isValidationError : GoErr → Bool
  | .app .validation _ _ => true
  | .appWrap .validation _ _ => true
  | _ => false

/-- Whether an error is a typed `*AppError` of kind `ErrorTypeProvider`. -/
def GoErr.isProviderError : GoErr → Bool
  | .app .provider _ _ => true
  | .appWrap .provider _ _ => true
  | _ => false

/-- Whether an error is a typed `*AppError` at all (as opposed to a generic
`fmt.Errorf` error). -/
def GoErr.isTyped : GoErr → Bool
  | .app _ _ _ => true
  | .appWrap _ _ _ => true
  | _ => false

/-- A calendar date (the component of a Go `time.Time` that the coordinator
formats with layout `"2006-01-02"`). -/
structure Date where
  year : Nat
  month : Nat
  day : Nat
  deriving DecidableEq, Repr

/-- Go `time.Time.Before` restricted to midnight-UTC dates: lexicographic. -/
def Date.before (a b : Date) : Bool :=
  a.year < b.year ∨ (a.year = b.year ∧
    (a.month < b.month ∨ (a.month = b.month ∧ a.day < b.day)))

/-- Go `time.Time.After` restricted to midnight-UTC dates. -/
def Date.after (a b : Date) : Bool := b.before a

/-- Decimal digits of `n`, zero-padded on the left to width `w` (Go `%0*d` /
fixed-width layout fields; wider numbers keep all their digits). -/
def padNat (w n : Nat) : String :=
  let s := toString n
  (String.mk (List.replicate (w - s.length) '0')) ++ s

/-- Go `time.Time.Format("2006-01-02")`: 4-digit year, 2-digit month, 2-digit
day, zero-padded, separated by hyphens. -/
def Date.format_2006_01_02 (d : Date) : String :=
  padNat 4 d.year ++ "-" ++ padNat 2 d.month ++ "-" ++ padNat 2 d.day

/-- Modelled from the spec: the spec's key-scheme date field `{YYYY-MM-DD}` —
four zero-padded year digits, two month digits, two day digits, hyphens. -/
def specYYYYMMDD (d : Date) : String :=
  padNat 4 d.year ++ "-" ++ padNat 2 d.month ++ "-" ++ padNat 2 d.day

/-- `models.Currency` -/
structure Currency where
  code : String
  name : String
  symbol : String := ""
  isBase : Bool := false
  isSupported : Bool
  deriving DecidableEq, Repr

/-- `models.ExchangeRate` -/
structure ExchangeRate where
  baseCurrency : String
  targetCurrency : String
  rate : ℚ
  provider : String
  fetchedAt : Nat
  isStale : Bool := false
  ttl : Int := 0
  deriving DecidableEq, Repr

/-- `models.HistoricalRate` -/
structure HistoricalRate where
  baseCurrency : String
  targetCurrency : String
  rate : ℚ
  date : Date
  provider : String
  fetchedAt : Nat
  deriving DecidableEq, Repr

/-- `models.ConversionRequest` -/
structure ConversionRequest where
  fromCurrency : String
  toCurrency : String
  amount : ℚ
  date : String := ""
  deriving DecidableEq, Repr

/-- `models.ConversionResponse` -/
structure ConversionResponse where
  fromCurrency : String
  toCurrency : String
  amount : ℚ
  convertedAmount : ℚ
  rate : ℚ
  provider : String
  fetchedAt : Nat
  deriving DecidableEq, Repr

/-- `models.OpenERAPIResponse` (the fields the client reads: `Result` and
`Rates`; `Rates` is the JSON object as an association list, looked up by
currency code). -/
structure OpenERAPIResponse where
  result : String
  baseCode : String := ""
  timeLastUpdateUnix : Int := 0
  rates : List (String × ℚ)
  deriving DecidableEq, Repr

/-- Go `apiResp.Rates[targetCurrency]` map lookup. -/
def OpenERAPIResponse.lookupRate (r : OpenERAPIResponse) (code : String) : Option ℚ :=
  (r.rates.find? (fun p => p.1 = code)).map (·.2)

/-- `models.HealthResponse`; `Providers` is the Go `map[string]string`,
modelled as a lookup function. -/
structure HealthResponse where
  status : String
  timestamp : Nat
  providers : String → Option String
  cache : String

/-- Go `time.Duration` in nanoseconds. -/
def durNanosecond : Nat := 1
def durSecond : Nat := 1000000000 * durNanosecond
def durMinute : Nat := 60 * durSecond
def durHour : Nat := 60 * durMinute

/-- Observable external actions of the coordinator, recorded as a trace. -/
inductive Event where
  | cacheGet (key : String)
  | cacheSet (key : String) (ttl : Nat)
  | cachePing
  | providerLatestCall (base target : String)
  | providerHistCall (base target : String) (date : Date)
  | providerCurrenciesCall
  | providerHealthCall
  | httpGet (url : String)
  | logged (msg : String)
  deriving DecidableEq, Repr

def Event.isProviderLatestCall : Event → Bool
  | .providerLatestCall _ _ => true
  | _ => false

def Event.isProviderHistCall : Event → Bool
  | .providerHistCall _ _ _ => true
  | _ => false

def Event.isCacheSet : Event → Bool
  | .cacheSet _ _ => true
  | _ => false

def Event.isHttpGet : Event → Bool
  | .httpGet _ => true
  | _ => false

deriving instance DecidableEq for Except

/-- The result of a provider HTTP round-trip as the client observes it:
`statusCode` from `resp.StatusCode`, and `decoded` the outcome of
`json.NewDecoder(resp.Body).Decode(&apiResp)` on that body. -/
structure HttpResponse where
  statusCode : Nat
  decoded : Except GoErr OpenERAPIResponse
  deriving DecidableEq, Repr

/-- Environment for the provider client: the network (`httpDo` is
`c.client.Do(req)` on a given URL — an error models a transport failure) and
the clock (`now` is `time.Now()`). Request construction
(`http.NewRequestWithContext` with method GET and a well-formed URL) cannot
fail and is not modelled. -/
structure HttpEnv where
  httpDo : String → Except GoErr HttpResponse
  now : Nat

/-- `repository.OpenERAPIClient` (its configuration fields). -/
structure OpenERAPIClient where
  name : String
  baseURL : String
  deriving DecidableEq, Repr

/-- `OpenERAPIClient.GetLatestRate`: GET `{baseURL}/latest/{base}`, require
status 200, decode, require `result == "success"`, look up the target
currency in `Rates`, and build the domain `ExchangeRate` with this provider's
name and the current time. -/
def OpenERAPIClient.GetLatestRate (c : OpenERAPIClient) (env : HttpEnv)
    (baseCurrency targetCurrency : String) :
    Except GoErr ExchangeRate × List Event :=
  let url := c.baseURL ++ "/latest/" ++ baseCurrency
  match env.httpDo url with
  | .error e => (.error (.wrapped "failed to make request" e), [.httpGet url])
  | .ok resp =>
    if resp.statusCode ≠ 200 then
      (.error (.errorf ("API returned status " ++ toString resp.statusCode)), [.httpGet url])
    else
      match resp.decoded with
      | .error e => (.error (.wrapped "failed to decode response" e), [.httpGet url])
      | .ok apiResp =>
        if apiResp.result ≠ "success" then
          (.error (.errorf ("API returned error result: " ++ apiResp.result)), [.httpGet url])
        else
          match apiResp.lookupRate targetCurrency with
          | none => (.error (.errorf ("rate not found for " ++ targetCurrency)), [.httpGet url])
          | some rate =>
            (.ok { baseCurrency := baseCurrency
                   targetCurrency := targetCurrency
                   rate := rate
                   provider := c.name
                   fetchedAt := env.now }, [.httpGet url])

/-- `OpenERAPIClient.GetHistoricalRate`: unconditionally returns
`fmt.Errorf("historical rates not supported by %s in free tier", c.name)`
and performs no network I/O. -/
def OpenERAPIClient.GetHistoricalRate (c : OpenERAPIClient) (_env : HttpEnv)
    (_baseCurrency _targetCurrency : String) (_date : Date) :
    Except GoErr HistoricalRate × List Event :=
  (.error (.errorf ("historical rates not supported by " ++ c.name ++ " in free tier")), [])

/-- `OpenERAPIClient.GetSupportedCurrencies`: GET `{baseURL}/latest/USD`,
require status 200, decode, require `result == "success"`, and turn every
key of `Rates` into a `Currency` with `Name = Code` and `IsSupported = true`.
(Go map iteration order is unspecified; the model uses the association-list
order of the decoded response.) -/
def OpenERAPIClient.GetSupportedCurrencies (c : OpenERAPIClient) (env : HttpEnv) :
    Except GoErr (List Currency) × List Event :=
  let url := c.baseURL ++ "/latest/USD"
  match env.httpDo url with
  | .error e => (.error (.wrapped "failed to make request" e), [.httpGet url])
  | .ok resp =>
    if resp.statusCode ≠ 200 then
      (.error (.errorf ("API returned status " ++ toString resp.statusCode)), [.httpGet url])
    else
      match resp.decoded with
      | .error e => (.error (.wrapped "failed to decode response" e), [.httpGet url])
      | .ok apiResp =>
        if apiResp.result ≠ "success" then
          (.error (.errorf ("API returned error result: " ++ apiResp.result)), [.httpGet url])
        else
          (.ok (apiResp.rates.map (fun p =>
            { code := p.1, name := p.1, isSupported := true })), [.httpGet url])

/-- `OpenERAPIClient.HealthCheck`: GET `{baseURL}/latest/USD` with a short
timeout; any transport error or non-200 status is a failure. -/
def OpenERAPIClient.HealthCheck (c : OpenERAPIClient) (env : HttpEnv) :
    Except GoErr Unit × List Event :=
  let url := c.baseURL ++ "/latest/USD"
  match env.httpDo url with
  | .error e => (.error (.wrapped "health check failed" e), [.httpGet url])
  | .ok resp =>
    if resp.statusCode ≠ 200 then
      (.error (.errorf ("health check returned status " ++ toString resp.statusCode)), [.httpGet url])
    else
      (.ok (), [.httpGet url])

/-- Environment for the cache store behind the `Cache` interface. `Get`
deserializes into a typed destination, so the model exposes one typed get per
destination type, each a function of the cache key; any error (miss,
connection failure, unmarshal failure) is just `.error`, matching the code's
uniform `if err := cache.Get(...); err == nil` treatment. `set` is the
outcome of `Set` on a given key. -/
structure CacheEnv where
  getLatest : String → Except GoErr ExchangeRate
  getHist : String → Except GoErr HistoricalRate
  getCurrencies : String → Except GoErr (List Currency)
  set : String → Except GoErr Unit
  ping : Except GoErr Unit

/-- `repository.rateRepository`: the coordinator's owned dependencies. The
constructor `NewRateRepository` always produces a non-nil client, but
`HealthCheck` guards `r.client != nil`, so the field is an `Option`. -/
structure RateRepository where
  cache : CacheEnv
  client : Option OpenERAPIClient

/-- `fmt.Sprintf("rate:%s:%s:latest", baseCurrency, targetCurrency)` -/
def latestRateKey (baseCurrency targetCurrency : String) : String :=
  "rate:" ++ baseCurrency ++ ":" ++ targetCurrency ++ ":latest"

/-- `fmt.Sprintf("rate:%s:%s:%s", baseCurrency, targetCurrency, date.Format("2006-01-02"))` -/
def historicalRateKey (baseCurrency targetCurrency : String) (date : Date) : String :=
  "rate:" ++ baseCurrency ++ ":" ++ targetCurrency ++ ":" ++ date.format_2006_01_02

/-- The cache key for the supported-currencies list. -/
def currenciesKey : String := "currencies:supported"

/-- `5 * time.Minute`: TTL of a latest-rate cache entry. -/
def latestRateTTL : Nat := 5 * durMinute

/-- `24 * time.Hour`: TTL of a historical-rate cache entry. -/
def historicalRateTTL : Nat := 24 * durHour

/-- `24 * time.Hour`: TTL of the supported-currencies cache entry. -/
def currenciesTTL : Nat := 24 * durHour

/-- `rateRepository.GetLatestRate`: cache-aside on the latest-rate key; on
any cache-get error fall through to the provider; on provider success Set the
result with the 5-minute TTL, logging and discarding a Set failure; on
provider failure return that error unchanged. -/
def RateRepository.GetLatestRate (r : RateRepository) (env : HttpEnv)
    (baseCurrency targetCurrency : String) :
    Except GoErr ExchangeRate × List Event :=
  let cacheKey := latestRateKey baseCurrency targetCurrency
  match r.cache.getLatest cacheKey with
  | .ok rate => (.ok rate, [.cacheGet cacheKey, .logged "rate found in cache"])
  | .error _ =>
    match r.client with
    | none => (.error (.errorf "nil provider client"), [.cacheGet cacheKey])
    | some c =>
      match c.GetLatestRate env baseCurrency targetCurrency with
      | (.error e, tr) =>
        (.error e, [.cacheGet cacheKey, .providerLatestCall baseCurrency targetCurrency] ++ tr)
      | (.ok ratePtr, tr) =>
        match r.cache.set cacheKey with
        | .error _ =>
          (.ok ratePtr,
            [.cacheGet cacheKey, .providerLatestCall baseCurrency targetCurrency] ++ tr ++
            [.cacheSet cacheKey latestRateTTL, .logged "failed to cache rate"])
        | .ok _ =>
          (.ok ratePtr,
            [.cacheGet cacheKey, .providerLatestCall baseCurrency targetCurrency] ++ tr ++
            [.cacheSet cacheKey latestRateTTL])

/-- `rateRepository.GetHistoricalRate`: cache-aside on the historical key
(date formatted `2006-01-02`); on cache-get error fall through to the
provider client; write-through with the 24-hour TTL on provider success. -/
def RateRepository.GetHistoricalRate (r : RateRepository) (env : HttpEnv)
    (baseCurrency targetCurrency : String) (date : Date) :
    Except GoErr HistoricalRate × List Event :=
  let cacheKey := historicalRateKey baseCurrency targetCurrency date
  match r.cache.getHist cacheKey with
  | .ok rate => (.ok rate, [.cacheGet cacheKey, .logged "historical rate found in cache"])
  | .error _ =>
    match r.client with
    | none => (.error (.errorf "nil provider client"), [.cacheGet cacheKey])
    | some c =>
      match c.GetHistoricalRate env baseCurrency targetCurrency date with
      | (.error e, tr) =>
        (.error e, [.cacheGet cacheKey, .providerHistCall baseCurrency targetCurrency date] ++ tr)
      | (.ok ratePtr, tr) =>
        match r.cache.set cacheKey with
        | .error _ =>
          (.ok ratePtr,
            [.cacheGet cacheKey, .providerHistCall baseCurrency targetCurrency date] ++ tr ++
            [.cacheSet cacheKey historicalRateTTL, .logged "failed to cache historical rate"])
        | .ok _ =>
          (.ok ratePtr,
            [.cacheGet cacheKey, .providerHistCall baseCurrency targetCurrency date] ++ tr ++
            [.cacheSet cacheKey historicalRateTTL])

/-- `rateRepository.GetSupportedCurrencies`: cache-aside on the constant key,
write-through with the 24-hour TTL. -/
def RateRepository.GetSupportedCurrencies (r : RateRepository) (env : HttpEnv) :
    Except GoErr (List Currency) × List Event :=
  let cacheKey := currenciesKey
  match r.cache.getCurrencies cacheKey with
  | .ok currencies => (.ok currencies, [.cacheGet cacheKey, .logged "supported currencies found in cache"])
  | .error _ =>
    match r.client with
    | none => (.error (.errorf "nil provider client"), [.cacheGet cacheKey])
    | some c =>
      match c.GetSupportedCurrencies env with
      | (.error e, tr) => (.error e, [.cacheGet cacheKey, .providerCurrenciesCall] ++ tr)
      | (.ok currencies, tr) =>
        match r.cache.set cacheKey with
        | .error _ =>
          (.ok currencies,
            [.cacheGet cacheKey, .providerCurrenciesCall] ++ tr ++
            [.cacheSet cacheKey currenciesTTL, .logged "failed to cache currencies"])
        | .ok _ =>
          (.ok currencies,
            [.cacheGet cacheKey, .providerCurrenciesCall] ++ tr ++
            [.cacheSet cacheKey currenciesTTL])

/-- Successive insertion into a Go `map[string]string`, modelled as function
update. -/
def mapInsert (m : String → Option String) (k v : String) : String → Option String :=
  fun x => if x = k then some v else m x

/-- `rateRepository.HealthCheck`: ping the cache and record
healthy/unhealthy under key `"cache"`; if a client is configured, run its
health check and record healthy/unhealthy under the client's name, otherwise
record `"unconfigured"` under `"open.er-api.com"`. Always returns the map
with a nil error. -/
def RateRepository.HealthCheck (r : RateRepository) (env : HttpEnv) :
    Except GoErr (String → Option String) × List Event :=
  let m0 : String → Option String := fun _ => none
  let m1 := match r.cache.ping with
    | .error _ => mapInsert m0 "cache" "unhealthy"
    | .ok _ => mapInsert m0 "cache" "healthy"
  match r.client with
  | some c =>
    match c.HealthCheck env with
    | (.error _, tr) => (.ok (mapInsert m1 c.name "unhealthy"), [.cachePing, .providerHealthCall] ++ tr)
    | (.ok _, tr) => (.ok (mapInsert m1 c.name "healthy"), [.cachePing, .providerHealthCall] ++ tr)
  | none => (.ok (mapInsert m1 "open.er-api.com" "unconfigured"), [.cachePing])

/-- `ErrorType` string values from errors.go. -/
def ErrorType.repr : ErrorType → String
  | .validation => "VALIDATION_ERROR"
  | .notFound => "NOT_FOUND"
  | .unauthorized => "UNAUTHORIZED"
  | .forbidden => "FORBIDDEN"
  | .internal => "INTERNAL_ERROR"
  | .provider => "PROVIDER_ERROR"
  | .cache => "CACHE_ERROR"

/-- `err.Error()`: `fmt.Errorf("msg: %w", cause)` renders `msg: cause`;
`AppError.Error()` renders `TYPE: message` or `TYPE: message (cause)`. -/
def GoErr.goMessage : GoErr → String
  | .errorf m => m
  | .wrapped m c => m ++ ": " ++ c.goMessage
  | .app t m _ => t.repr ++ ": " ++ m
  | .appWrap t m c => t.repr ++ ": " ++ m ++ " (" ++ c.goMessage ++ ")"

/-- The `repository.RateRepository` interface as consumed by the service
layer (`s.rateRepo`): each operation's result together with its trace. -/
structure RepoI where
  getLatestRate : String → String → Except GoErr ExchangeRate × List Event
  getHistoricalRate : String → String → Date → Except GoErr HistoricalRate × List Event
  getSupportedCurrencies : Unit → Except GoErr (List Currency) × List Event
  healthCheck : Unit → Except GoErr (String → Option String) × List Event

/-- The concrete `rateRepository` seen through the interface. -/
def RateRepository.toRepoI (r : RateRepository) (env : HttpEnv) : RepoI where
  getLatestRate := r.GetLatestRate env
  getHistoricalRate := r.GetHistoricalRate env
  getSupportedCurrencies := fun _ => r.GetSupportedCurrencies env
  healthCheck := fun _ => r.HealthCheck env

/-- `exchangeService.validateCurrencies`: empty-base, empty-target, and
equal-currencies checks, in that order; `none` means valid (nil error). -/
def validateCurrencies (baseCurrency targetCurrency : String) : Option GoErr :=
  if baseCurrency = "" then
    some (NewValidationError "base currency is required" "base_currency cannot be empty")
  else if targetCurrency = "" then
    some (NewValidationError "target currency is required" "target_currency cannot be empty")
  else if baseCurrency = targetCurrency then
    some (NewValidationError "currencies must be different" "base_currency and target_currency cannot be the same")
  else none

/-- `exchangeService.validateConversionRequest`: empty-from, empty-to,
non-positive amount, equal-currencies checks, in that order. -/
def validateConversionRequest (req : ConversionRequest) : Option GoErr :=
  if req.fromCurrency = "" then
    some (NewValidationError "from currency is required" "from_currency cannot be empty")
  else if req.toCurrency = "" then
    some (NewValidationError "to currency is required" "to_currency cannot be empty")
  else if req.amount ≤ 0 then
    some (NewValidationError "amount must be positive" "amount must be greater than 0")
  else if req.fromCurrency = req.toCurrency then
    some (NewValidationError "currencies must be different" "from_currency and to_currency cannot be the same")
  else none

/-- Exactly `w` decimal digits (the fixed-width numeric fields of Go's date
parser). -/
def parseFixedNat (cs : List Char) (w : Nat) : Option Nat :=
  if cs.length = w ∧ cs.all Char.isDigit then
    some (cs.foldl (fun a c => a * 10 + (c.toNat - 48)) 0)
  else none

/-- Split a character list on a separator character (groups between
separators, empty groups preserved). -/
def splitChar (sep : Char) : List Char → List (List Char)
  | [] => [[]]
  | c :: rest =>
    match splitChar sep rest with
    | [] => if c = sep then [[], []] else [[c]]
    | g :: gs => if c = sep then [] :: g :: gs else (c :: g) :: gs

def isLeapYear (y : Nat) : Bool := (y % 4 = 0 ∧ y % 100 ≠ 0) ∨ y % 400 = 0

def daysInMonth (y m : Nat) : Nat :=
  if m = 2 then (if isLeapYear y then 29 else 28)
  else if m = 4 ∨ m = 6 ∨ m = 9 ∨ m = 11 then 30
  else 31

/-- Range-check a parsed (year, month, day) the way Go's date parser does. -/
def mkValidDate (y m d : Nat) : Option Date :=
  if 1 ≤ m ∧ m ≤ 12 ∧ 1 ≤ d ∧ d ≤ daysInMonth y m then some ⟨y, m, d⟩ else none

/-- Layouts `"2006-01-02"` and `"2006/01/02"`: year first — exactly 4 year
digits, separator, 2 month digits, separator, 2 day digits, and an in-range
calendar date, as Go's `time.Parse` requires. -/
def parseLayoutYMD (sep : Char) (s : String) : Option Date :=
  match splitChar sep s.toList with
  | [ys, ms, ds] => do
    let y ← parseFixedNat ys 4
    let m ← parseFixedNat ms 2
    let d ← parseFixedNat ds 2
    mkValidDate y m d
  | _ => none

/-- Layouts `"02-01-2006"` and `"02/01/2006"`: day first. -/
def parseLayoutDMY (sep : Char) (s : String) : Option Date :=
  match splitChar sep s.toList with
  | [ds, ms, ys] => do
    let d ← parseFixedNat ds 2
    let m ← parseFixedNat ms 2
    let y ← parseFixedNat ys 4
    mkValidDate y m d
  | _ => none

/-- `transport.parseDate`: empty string is an error; otherwise the four
accepted layouts are tried in order. -/
def parseDate (s : String) : Except GoErr Date :=
  if s = "" then .error (.errorf "date string is empty")
  else
    match parseLayoutYMD '-' s <|> parseLayoutYMD '/' s <|>
          parseLayoutDMY '-' s <|> parseLayoutDMY '/' s with
    | some d => .ok d
    | none => .error (.errorf ("invalid date format: " ++ s))

/-- `exchangeService.GetLatestRate`: validate, then delegate to the
repository. -/
def ExchangeService.GetLatestRate (repo : RepoI) (baseCurrency targetCurrency : String) :
    Except GoErr ExchangeRate × List Event :=
  match validateCurrencies baseCurrency targetCurrency with
  | some e => (.error e, [])
  | none => repo.getLatestRate baseCurrency targetCurrency

/-- `exchangeService.ConvertCurrency`: validate; resolve a historical rate
when `req.Date` is set (after `time.Parse("2006-01-02", _)`) and the latest
rate otherwise; multiply and copy the resolved rate's fields into the
response. (Go holds the resolved rate in an `interface{}` and re-branches on
`req.Date != ""` with a type assertion that always succeeds; the two branches
are fused here.) -/
def ExchangeService.ConvertCurrency (repo : RepoI) (req : ConversionRequest) :
    Except GoErr ConversionResponse × List Event :=
  match validateConversionRequest req with
  | some e => (.error e, [])
  | none =>
    if req.date ≠ "" then
      match parseLayoutYMD '-' req.date with
      | none => (.error (NewValidationError "invalid date format" "date must be in YYYY-MM-DD format"), [])
      | some date =>
        match repo.getHistoricalRate req.fromCurrency req.toCurrency date with
        | (.error e, tr) => (.error e, tr)
        | (.ok histRate, tr) =>
          (.ok { fromCurrency := req.fromCurrency
                 toCurrency := req.toCurrency
                 amount := req.amount
                 convertedAmount := req.amount * histRate.rate
                 rate := histRate.rate
                 provider := histRate.provider
                 fetchedAt := histRate.fetchedAt }, tr)
    else
      match repo.getLatestRate req.fromCurrency req.toCurrency with
      | (.error e, tr) => (.error e, tr)
      | (.ok latestRate, tr) =>
        (.ok { fromCurrency := req.fromCurrency
               toCurrency := req.toCurrency
               amount := req.amount
               convertedAmount := req.amount * latestRate.rate
               rate := latestRate.rate
               provider := latestRate.provider
               fetchedAt := latestRate.fetchedAt }, tr)

/-- `exchangeService.GetHistoricalRate`: validate, then delegate. -/
def ExchangeService.GetHistoricalRate (repo : RepoI)
    (baseCurrency targetCurrency : String) (date : Date) :
    Except GoErr HistoricalRate × List Event :=
  match validateCurrencies baseCurrency targetCurrency with
  | some e => (.error e, [])
  | none => repo.getHistoricalRate baseCurrency targetCurrency date

/-- `exchangeService.GetSupportedCurrencies`: delegate. -/
def ExchangeService.GetSupportedCurrencies (repo : RepoI) :
    Except GoErr (List Currency) × List Event :=
  repo.getSupportedCurrencies ()

/-- `exchangeService.HealthCheck`: on repository success, wrap the
dependency map in a `HealthResponse` with constant `Status: "healthy"` and
`Cache: "connected"`. -/
def ExchangeService.HealthCheck (repo : RepoI) (now : Nat) :
    Except GoErr HealthResponse × List Event :=
  match repo.healthCheck () with
  | (.error e, tr) => (.error e, tr)
  | (.ok providers, tr) =>
    (.ok { status := "healthy", timestamp := now, providers := providers, cache := "connected" }, tr)

/-- `transport.GetHistoricalRatesRequest` (DTO fields From/To/StartDate/EndDate). -/
structure GetHistoricalRatesRequest where
  fromCurrency : String
  toCurrency : String
  startDate : String
  endDate : String
  deriving DecidableEq, Repr

/-- `transport.GetHistoricalRatesResponse`. -/
structure GetHistoricalRatesResponse where
  rates : List HistoricalRate := []
  error : String := ""
  deriving DecidableEq, Repr

/-- `date.Add(24 * time.Hour)` on a midnight-UTC date: the next calendar day. -/
def Date.nextDay (d : Date) : Date :=
  if d.day < daysInMonth d.year d.month then ⟨d.year, d.month, d.day + 1⟩
  else if d.month < 12 then ⟨d.year, d.month + 1, 1⟩
  else ⟨d.year + 1, 1, 1⟩

/-- A measure that strictly increases day by day, used as loop fuel. -/
def Date.dayIndex (d : Date) : Nat := d.year * 372 + d.month * 31 + d.day

/-- The endpoint's date loop `for d := start; !d.After(end); d = d.Add(24h)`:
call the service per day, aborting with the error message on the first
failure. (Fuel-indexed; the endpoint supplies enough fuel to cover the
range.) -/
def histRatesLoop (svcHist : String → String → Date → Except GoErr HistoricalRate × List Event)
    (fromC toC : String) (endD : Date) :
    Nat → Date → Except String (List HistoricalRate) × List Event
  | 0, _ => (.ok [], [])
  | fuel + 1, d =>
    if d.after endD then (.ok [], [])
    else
      match svcHist fromC toC d with
      | (.error e, tr) => (.error e.goMessage, tr)
      | (.ok rate, tr) =>
        match histRatesLoop svcHist fromC toC endD fuel d.nextDay with
        | (.error msg, tr') => (.error msg, tr ++ tr')
        | (.ok rest, tr') => (.ok (rate :: rest), tr ++ tr')

/-- `transport.makeGetHistoricalRatesEndpoint`: parse both dates, reject a
range whose end precedes its start before touching the service, then walk
the range day by day. -/
def makeGetHistoricalRatesEndpoint
    (svcHist : String → String → Date → Except GoErr HistoricalRate × List Event)
    (req : GetHistoricalRatesRequest) :
    GetHistoricalRatesResponse × List Event :=
  match parseDate req.startDate with
  | .error e => ({ error := e.goMessage }, [])
  | .ok start =>
    match parseDate req.endDate with
    | .error e => ({ error := e.goMessage }, [])
    | .ok endD =>
      if endD.before start then ({ error := "end_date must be after start_date" }, [])
      else
        match histRatesLoop svcHist req.fromCurrency req.toCurrency endD
            (endD.dayIndex + 1 - start.dayIndex) start with
        | (.error msg, tr) => ({ error := msg }, tr)
        | (.ok rates, tr) => ({ rates := rates }, tr)

/-- Whether an `Except` value is a success. -/
def isOkB {ε α : Type} : Except ε α → Bool
  | .ok _ => true
  | .error _ => false

/-- Whether a result is a validation failure (`errors.IsValidationError` on
the error path, false on the success path). -/
def failsValidation {α : Type} : Except GoErr α → Bool
  | .error e => e.isValidationError
  | .ok _ => false

/-- The provider client's latest-rate call performs exactly one HTTP GET on
`{baseURL}/latest/{base}`, whatever the outcome. -/
theorem clientLatest_trace (c : OpenERAPIClient) (env : HttpEnv) (b t : String) :
    (c.GetLatestRate env b t).2 = [.httpGet (c.baseURL ++ "/latest/" ++ b)] := by
  unfold OpenERAPIClient.GetLatestRate
  dsimp only
  (repeat' split) <;> rfl

/-- The provider client's currencies call performs exactly one HTTP GET on
`{baseURL}/latest/USD`, whatever the outcome. -/
theorem clientCurrencies_trace (c : OpenERAPIClient) (env : HttpEnv) :
    (c.GetSupportedCurrencies env).2 = [.httpGet (c.baseURL ++ "/latest/USD")] := by
  unfold OpenERAPIClient.GetSupportedCurrencies
  dsimp only
  (repeat' split) <;> rfl

/-- Cache hit: the deserialized cached value is returned as-is. -/
theorem getLatest_hit (r : RateRepository) (env : HttpEnv) (b t : String) (rate : ExchangeRate)
    (h : r.cache.getLatest (latestRateKey b t) = .ok rate) :
    r.GetLatestRate env b t =
      (.ok rate, [.cacheGet (latestRateKey b t), .logged "rate found in cache"]) := by
  unfold RateRepository.GetLatestRate
  dsimp only
  rw [h]

/-- Cache miss, provider failure: the provider's error is returned unchanged. -/
theorem getLatest_miss_clientErr (r : RateRepository) (env : HttpEnv) (b t : String)
    (eg : GoErr) (c : OpenERAPIClient) (e : GoErr) (tr : List Event)
    (hm : r.cache.getLatest (latestRateKey b t) = .error eg)
    (hc : r.client = some c)
    (he : c.GetLatestRate env b t = (.error e, tr)) :
    r.GetLatestRate env b t =
      (.error e, [.cacheGet (latestRateKey b t), .providerLatestCall b t] ++ tr) := by
  unfold RateRepository.GetLatestRate
  dsimp only
  simp only [hm, hc, he]

/-- Cache miss, provider success, cache write succeeds. -/
theorem getLatest_miss_clientOk_setOk (r : RateRepository) (env : HttpEnv) (b t : String)
    (eg : GoErr) (c : OpenERAPIClient) (rate : ExchangeRate) (tr : List Event)
    (hm : r.cache.getLatest (latestRateKey b t) = .error eg)
    (hc : r.client = some c)
    (he : c.GetLatestRate env b t = (.ok rate, tr))
    (hs : r.cache.set (latestRateKey b t) = .ok ()) :
    r.GetLatestRate env b t =
      (.ok rate, [.cacheGet (latestRateKey b t), .providerLatestCall b t] ++ tr ++
        [.cacheSet (latestRateKey b t) latestRateTTL]) := by
  unfold RateRepository.GetLatestRate
  dsimp only
  simp only [hm, hc, he, hs]

/-- Cache miss, provider success, cache write fails: the failure is logged
and the fetched rate is still returned. -/
theorem getLatest_miss_clientOk_setErr (r : RateRepository) (env : HttpEnv) (b t : String)
    (eg : GoErr) (c : OpenERAPIClient) (rate : ExchangeRate) (tr : List Event) (es : GoErr)
    (hm : r.cache.getLatest (latestRateKey b t) = .error eg)
    (hc : r.client = some c)
    (he : c.GetLatestRate env b t = (.ok rate, tr))
    (hs : r.cache.set (latestRateKey b t) = .error es) :
    r.GetLatestRate env b t =
      (.ok rate, [.cacheGet (latestRateKey b t), .providerLatestCall b t] ++ tr ++
        [.cacheSet (latestRateKey b t) latestRateTTL, .logged "failed to cache rate"]) := by
  unfold RateRepository.GetLatestRate
  dsimp only
  simp only [hm, hc, he, hs]

/-- Historical cache hit. -/
theorem getHist_hit (r : RateRepository) (env : HttpEnv) (b t : String) (d : Date)
    (rate : HistoricalRate)
    (h : r.cache.getHist (historicalRateKey b t d) = .ok rate) :
    r.GetHistoricalRate env b t d =
      (.ok rate, [.cacheGet (historicalRateKey b t d), .logged "historical rate found in cache"]) := by
  unfold RateRepository.GetHistoricalRate
  dsimp only
  rw [h]

/-- Historical cache miss: the concrete client's unconditional
not-supported error is returned, and nothing is written. -/
theorem getHist_miss (r : RateRepository) (env : HttpEnv) (b t : String) (d : Date)
    (eg : GoErr) (c : OpenERAPIClient)
    (hm : r.cache.getHist (historicalRateKey b t d) = .error eg)
    (hc : r.client = some c) :
    r.GetHistoricalRate env b t d =
      (.error (.errorf ("historical rates not supported by " ++ c.name ++ " in free tier")),
        [.cacheGet (historicalRateKey b t d), .providerHistCall b t d]) := by
  unfold RateRepository.GetHistoricalRate
  dsimp only
  rw [hm, hc]
  rfl

/-- Currencies cache hit. -/
theorem getCurrencies_hit (r : RateRepository) (env : HttpEnv) (cs : List Currency)
    (h : r.cache.getCurrencies currenciesKey = .ok cs) :
    r.GetSupportedCurrencies env =
      (.ok cs, [.cacheGet currenciesKey, .logged "supported currencies found in cache"]) := by
  unfold RateRepository.GetSupportedCurrencies
  dsimp only
  rw [h]

/-- Currencies cache miss, provider failure. -/
theorem getCurrencies_miss_clientErr (r : RateRepository) (env : HttpEnv)
    (eg : GoErr) (c : OpenERAPIClient) (e : GoErr) (tr : List Event)
    (hm : r.cache.getCurrencies currenciesKey = .error eg)
    (hc : r.client = some c)
    (he : c.GetSupportedCurrencies env = (.error e, tr)) :
    r.GetSupportedCurrencies env =
      (.error e, [.cacheGet currenciesKey, .providerCurrenciesCall] ++ tr) := by
  unfold RateRepository.GetSupportedCurrencies
  dsimp only
  simp only [hm, hc, he]

/-- Currencies cache miss, provider success, write succeeds. -/
theorem getCurrencies_miss_clientOk_setOk (r : RateRepository) (env : HttpEnv)
    (eg : GoErr) (c : OpenERAPIClient) (cs : List Currency) (tr : List Event)
    (hm : r.cache.getCurrencies currenciesKey = .error eg)
    (hc : r.client = some c)
    (he : c.GetSupportedCurrencies env = (.ok cs, tr))
    (hs : r.cache.set currenciesKey = .ok ()) :
    r.GetSupportedCurrencies env =
      (.ok cs, [.cacheGet currenciesKey, .providerCurrenciesCall] ++ tr ++
        [.cacheSet currenciesKey currenciesTTL]) := by
  unfold RateRepository.GetSupportedCurrencies
  dsimp only
  simp only [hm, hc, he, hs]

/-- Currencies cache miss, provider success, write fails: logged, list still
returned. -/
theorem getCurrencies_miss_clientOk_setErr (r : RateRepository) (env : HttpEnv)
    (eg : GoErr) (c : OpenERAPIClient) (cs : List Currency) (tr : List Event) (es : GoErr)
    (hm : r.cache.getCurrencies currenciesKey = .error eg)
    (hc : r.client = some c)
    (he : c.GetSupportedCurrencies env = (.ok cs, tr))
    (hs : r.cache.set currenciesKey = .error es) :
    r.GetSupportedCurrencies env =
      (.ok cs, [.cacheGet currenciesKey, .providerCurrenciesCall] ++ tr ++
        [.cacheSet currenciesKey currenciesTTL, .logged "failed to cache currencies"]) := by
  unfold RateRepository.GetSupportedCurrencies
  dsimp only
  simp only [hm, hc, he, hs]

/-- Cache miss with no configured client (unreachable through the
constructor, which always wires a client, but present in the code). -/
theorem getLatest_noClient (r : RateRepository) (env : HttpEnv) (b t : String) (eg : GoErr)
    (hm : r.cache.getLatest (latestRateKey b t) = .error eg)
    (hc : r.client = none) :
    r.GetLatestRate env b t =
      (.error (.errorf "nil provider client"), [.cacheGet (latestRateKey b t)]) := by
  unfold RateRepository.GetLatestRate
  dsimp only
  simp only [hm, hc]

theorem getHist_noClient (r : RateRepository) (env : HttpEnv) (b t : String) (d : Date) (eg : GoErr)
    (hm : r.cache.getHist (historicalRateKey b t d) = .error eg)
    (hc : r.client = none) :
    r.GetHistoricalRate env b t d =
      (.error (.errorf "nil provider client"), [.cacheGet (historicalRateKey b t d)]) := by
  unfold RateRepository.GetHistoricalRate
  dsimp only
  simp only [hm, hc]

theorem getCurrencies_noClient (r : RateRepository) (env : HttpEnv) (eg : GoErr)
    (hm : r.cache.getCurrencies currenciesKey = .error eg)
    (hc : r.client = none) :
    r.GetSupportedCurrencies env =
      (.error (.errorf "nil provider client"), [.cacheGet currenciesKey]) := by
  unfold RateRepository.GetSupportedCurrencies
  dsimp only
  simp only [hm, hc]

/-- C6: for every input, the coordinator's cache keys are exactly
`rate:{base}:{target}:latest` for a latest rate,
`rate:{base}:{target}:{YYYY-MM-DD}` for a historical rate, and the constant
`currencies:supported` for the currency list, and each operation's first
external action is a cache Get on exactly that key. -/
theorem spec_C6 (r : RateRepository) (env : HttpEnv) (base target : String) (d : Date) :
    latestRateKey base target = "rate:" ++ base ++ ":" ++ target ++ ":latest" ∧
    historicalRateKey base target d =
      "rate:" ++ base ++ ":" ++ target ++ ":" ++ specYYYYMMDD d ∧
    currenciesKey = "currencies:supported" ∧
    (r.GetLatestRate env base target).2.head? = some (.cacheGet (latestRateKey base target)) ∧
    (r.GetHistoricalRate env base target d).2.head? =
      some (.cacheGet (historicalRateKey base target d)) ∧
    (r.GetSupportedCurrencies env).2.head? = some (.cacheGet currenciesKey) := by
  refine ⟨rfl, rfl, rfl, ?_, ?_, ?_⟩
  · unfold RateRepository.GetLatestRate
    dsimp only
    (repeat' split) <;> rfl
  · unfold RateRepository.GetHistoricalRate
    dsimp only
    (repeat' split) <;> rfl
  · unfold RateRepository.GetSupportedCurrencies
    dsimp only
    (repeat' split) <;> rfl

/-- C7: every cache write of `GetLatestRate` uses the 5-minute TTL, every
cache write of `GetHistoricalRate` uses the 24-hour TTL, every cache write
of `GetSupportedCurrencies` uses the 24-hour TTL, and the
historical/currency TTL is strictly greater than the latest-rate TTL. -/
theorem spec_C7 (r : RateRepository) (env : HttpEnv) (b t : String) (d : Date)
    (k : String) (ttl : Nat) :
    latestRateTTL = 5 * durMinute ∧
    historicalRateTTL = 24 * durHour ∧
    currenciesTTL = 24 * durHour ∧
    latestRateTTL < historicalRateTTL ∧
    latestRateTTL < currenciesTTL ∧
    (Event.cacheSet k ttl ∈ (r.GetLatestRate env b t).2 → ttl = latestRateTTL) ∧
    (Event.cacheSet k ttl ∈ (r.GetHistoricalRate env b t d).2 → ttl = historicalRateTTL) ∧
    (Event.cacheSet k ttl ∈ (r.GetSupportedCurrencies env).2 → ttl = currenciesTTL) := by
  refine ⟨rfl, rfl, rfl, by decide, by decide, ?_, ?_, ?_⟩
  · intro h
    cases hm : r.cache.getLatest (latestRateKey b t) with
    | ok rate => rw [getLatest_hit r env b t rate hm] at h; simp at h
    | error eg =>
      cases hc : r.client with
      | none => rw [getLatest_noClient r env b t eg hm hc] at h; simp at h
      | some c =>
        have hct := clientLatest_trace c env b t
        rcases hcl : c.GetLatestRate env b t with ⟨res, tr⟩
        rw [hcl] at hct
        dsimp at hct
        subst hct
        cases res with
        | error e =>
          rw [getLatest_miss_clientErr r env b t eg c e _ hm hc hcl] at h
          simp at h
        | ok rate =>
          cases hs : r.cache.set (latestRateKey b t) with
          | ok u =>
            cases u
            rw [getLatest_miss_clientOk_setOk r env b t eg c rate _ hm hc hcl hs] at h
            simp at h
            exact h.2
          | error es =>
            rw [getLatest_miss_clientOk_setErr r env b t eg c rate _ es hm hc hcl hs] at h
            simp at h
            exact h.2
  · intro h
    cases hm : r.cache.getHist (historicalRateKey b t d) with
    | ok rate => rw [getHist_hit r env b t d rate hm] at h; simp at h
    | error eg =>
      cases hc : r.client with
      | none => rw [getHist_noClient r env b t d eg hm hc] at h; simp at h
      | some c => rw [getHist_miss r env b t d eg c hm hc] at h; simp at h
  · intro h
    cases hm : r.cache.getCurrencies currenciesKey with
    | ok cs => rw [getCurrencies_hit r env cs hm] at h; simp at h
    | error eg =>
      cases hc : r.client with
      | none => rw [getCurrencies_noClient r env eg hm hc] at h; simp at h
      | some c =>
        have hct := clientCurrencies_trace c env
        rcases hcl : c.GetSupportedCurrencies env with ⟨res, tr⟩
        rw [hcl] at hct
        dsimp at hct
        subst hct
        cases res with
        | error e =>
          rw [getCurrencies_miss_clientErr r env eg c e _ hm hc hcl] at h
          simp at h
        | ok cs =>
          cases hs : r.cache.set currenciesKey with
          | ok u =>
            cases u
            rw [getCurrencies_miss_clientOk_setOk r env eg c cs _ hm hc hcl hs] at h
            simp at h
            exact h.2
          | error es =>
            rw [getCurrencies_miss_clientOk_setErr r env eg c cs _ es hm hc hcl hs] at h
            simp at h
            exact h.2

/-- C1: for `GetLatestRate` after validation — on a cache hit the
deserialized cached rate is returned and the provider is not called (no
HTTP, no write); on a cache miss or error the provider is called exactly
once, a provider success is written through to the cache and returned, a
failure of that write is logged and swallowed (the fetched rate is still
returned), and any error surfaced to the caller is the provider's own
error, never a cache error. -/
theorem spec_C1 (r : RateRepository) (env : HttpEnv) (b t : String) (c : OpenERAPIClient)
    (hcl : r.client = some c) :
    (∀ rate, r.cache.getLatest (latestRateKey b t) = .ok rate →
      (r.GetLatestRate env b t).1 = .ok rate ∧
      (r.GetLatestRate env b t).2.filter Event.isProviderLatestCall = [] ∧
      (r.GetLatestRate env b t).2.filter Event.isHttpGet = [] ∧
      (r.GetLatestRate env b t).2.filter Event.isCacheSet = []) ∧
    (∀ eg, r.cache.getLatest (latestRateKey b t) = .error eg →
      ((r.GetLatestRate env b t).2.filter Event.isProviderLatestCall).length = 1 ∧
      (∀ rate tr, c.GetLatestRate env b t = (.ok rate, tr) →
        (r.GetLatestRate env b t).1 = .ok rate ∧
        Event.cacheSet (latestRateKey b t) latestRateTTL ∈ (r.GetLatestRate env b t).2 ∧
        (∀ es, r.cache.set (latestRateKey b t) = .error es →
          Event.logged "failed to cache rate" ∈ (r.GetLatestRate env b t).2)) ∧
      (∀ e, (r.GetLatestRate env b t).1 = .error e →
        (c.GetLatestRate env b t).1 = .error e)) := by
  constructor
  · intro rate hm
    rw [getLatest_hit r env b t rate hm]
    exact ⟨rfl, rfl, rfl, rfl⟩
  · intro eg hm
    have hct := clientLatest_trace c env b t
    rcases hcl2 : c.GetLatestRate env b t with ⟨res, tr⟩
    rw [hcl2] at hct
    dsimp at hct
    subst hct
    cases res with
    | error e =>
      rw [getLatest_miss_clientErr r env b t eg c e _ hm hcl hcl2]
      refine ⟨rfl, ?_, ?_⟩
      · intro rate tr h
        simp at h
      · intro e' he'
        simp at he'
        subst he'
        rfl
    | ok rate =>
      cases hs : r.cache.set (latestRateKey b t) with
      | ok u =>
        cases u
        rw [getLatest_miss_clientOk_setOk r env b t eg c rate _ hm hcl hcl2 hs]
        refine ⟨rfl, ?_, ?_⟩
        · intro rate' tr' h
          simp at h
          obtain ⟨h1, h2⟩ := h
          subst h1
          refine ⟨rfl, by simp, ?_⟩
          intro es hes
          simp at hes
        · intro e he
          simp at he
      | error es =>
        rw [getLatest_miss_clientOk_setErr r env b t eg c rate _ es hm hcl hcl2 hs]
        refine ⟨rfl, ?_, ?_⟩
        · intro rate' tr' h
          simp at h
          obtain ⟨h1, h2⟩ := h
          subst h1
          exact ⟨rfl, by simp, fun es2 hes2 => by simp⟩
        · intro e he
          simp at he

/-- The provider client as wired by `NewRateRepository` under the default
configuration. -/
def clientW : OpenERAPIClient :=
  { name := "open.er-api.com", baseURL := "https://open.er-api.com/v6" }

/-- A network where every request succeeds with a small USD rate table. -/
def respW : HttpResponse :=
  { statusCode := 200
    decoded := .ok { result := "success", rates := [("EUR", (⟨23, 25, by decide, by decide⟩ : ℚ)), ("INR", (⟨83, 1, by decide, by decide⟩ : ℚ))] } }

def httpOkEnv : HttpEnv :=
  { httpDo := fun _ => .ok respW
    now := 1700000000 }

/-- A network where every request fails at the transport level. -/
def httpDownEnv : HttpEnv :=
  { httpDo := fun _ => .error (.errorf "dial tcp: connection refused"),
    now := 1700000000 }

/-- A cache where every Get misses and every Set succeeds. -/
def cacheMissEnv : CacheEnv :=
  { getLatest := fun _ => .error (.errorf "key not found")
    getHist := fun _ => .error (.errorf "key not found")
    getCurrencies := fun _ => .error (.errorf "key not found")
    set := fun _ => .ok ()
    ping := .ok () }

/-- A cache where every operation, Get and Set alike, fails. -/
def cacheDownEnv : CacheEnv :=
  { getLatest := fun _ => .error (.errorf "connection refused")
    getHist := fun _ => .error (.errorf "connection refused")
    getCurrencies := fun _ => .error (.errorf "connection refused")
    set := fun _ => .error (.errorf "connection refused")
    ping := .error (.errorf "connection refused") }

def rateUSDEUR : ExchangeRate :=
  { baseCurrency := "USD", targetCurrency := "EUR", rate := (⟨23, 25, by decide, by decide⟩ : ℚ),
    provider := "open.er-api.com", fetchedAt := 1690000000 }

def histUSDEUR : HistoricalRate :=
  { baseCurrency := "USD", targetCurrency := "EUR", rate := (⟨9, 10, by decide, by decide⟩ : ℚ),
    date := ⟨2024, 2, 1⟩, provider := "open.er-api.com", fetchedAt := 1690000000 }

/-- A warm cache holding the fixtures above under every key. -/
def cacheHitEnv : CacheEnv :=
  { getLatest := fun _ => .ok rateUSDEUR
    getHist := fun _ => .ok histUSDEUR
    getCurrencies := fun _ => .ok [{ code := "EUR", name := "EUR", isSupported := true }]
    set := fun _ => .ok ()
    ping := .ok () }

def repoMiss : RateRepository := { cache := cacheMissEnv, client := some clientW }
def repoDown : RateRepository := { cache := cacheDownEnv, client := some clientW }
def repoHit : RateRepository := { cache := cacheHitEnv, client := some clientW }

/-- Witness for C1 at concrete inputs: a warm cache returns the cached rate;
with a fully failing cache (Get and Set both erroring) and a healthy
provider, the fetched rate is still returned and the Set failure is logged
and swallowed. -/
theorem spec_C1_witness :
    (repoHit.GetLatestRate httpOkEnv "USD" "EUR").1 = .ok rateUSDEUR ∧
    (repoDown.GetLatestRate httpOkEnv "USD" "EUR").1 =
      .ok { baseCurrency := "USD", targetCurrency := "EUR",
            rate := (⟨23, 25, by decide, by decide⟩ : ℚ),
            provider := "open.er-api.com", fetchedAt := 1700000000 } ∧
    Event.logged "failed to cache rate" ∈ (repoDown.GetLatestRate httpOkEnv "USD" "EUR").2 := by
  have h1 := (spec_C1 repoHit httpOkEnv "USD" "EUR" clientW rfl).1 rateUSDEUR rfl
  have h2 := (spec_C1 repoDown httpOkEnv "USD" "EUR" clientW rfl).2 (.errorf "connection refused") rfl
  have h3 := h2.2.1
    { baseCurrency := "USD", targetCurrency := "EUR",
      rate := (⟨23, 25, by decide, by decide⟩ : ℚ),
      provider := "open.er-api.com", fetchedAt := 1700000000 }
    [.httpGet "https://open.er-api.com/v6/latest/USD"] (by decide)
  exact ⟨h1.1, h3.1, h3.2.2 (.errorf "connection refused") rfl⟩

/-- Counterexample to C2 as stated: with a cache miss and a provider
transport failure, the error `GetLatestRate` propagates to the caller is the
client's plain wrapped `fmt.Errorf` error — not a typed failure of kind
`ProviderError` (`errors.NewProviderError` is never invoked on this path). -/
theorem spec_C2_counterexample :
    (repoDown.GetLatestRate httpDownEnv "USD" "EUR").1 =
      .error (.wrapped "failed to make request" (.errorf "dial tcp: connection refused")) ∧
    GoErr.isProviderError
      (.wrapped "failed to make request" (.errorf "dial tcp: connection refused")) = false := by
  exact ⟨rfl, rfl⟩

/-- C2 (amended): whenever the provider fetch fails during `GetLatestRate`
or `GetHistoricalRate` after a cache miss, the coordinator propagates the
client's error to the caller verbatim (unchanged — as a generic Go error,
not wrapped into a typed ProviderError); it calls the provider exactly once
(no internal retry) and writes nothing to the cache (no fallback value). -/
theorem spec_C2_amended (r : RateRepository) (env : HttpEnv) (b t : String) (d : Date)
    (c : OpenERAPIClient) (hcl : r.client = some c) :
    (∀ eg e, r.cache.getLatest (latestRateKey b t) = .error eg →
      (c.GetLatestRate env b t).1 = .error e →
      (r.GetLatestRate env b t).1 = .error e ∧
      ((r.GetLatestRate env b t).2.filter Event.isProviderLatestCall).length = 1 ∧
      (r.GetLatestRate env b t).2.filter Event.isCacheSet = []) ∧
    (∀ eg, r.cache.getHist (historicalRateKey b t d) = .error eg →
      (r.GetHistoricalRate env b t d).1 =
        .error (.errorf ("historical rates not supported by " ++ c.name ++ " in free tier")) ∧
      ((r.GetHistoricalRate env b t d).2.filter Event.isProviderHistCall).length = 1 ∧
      (r.GetHistoricalRate env b t d).2.filter Event.isCacheSet = []) := by
  constructor
  · intro eg e hm
    have hct := clientLatest_trace c env b t
    rcases hcl2 : c.GetLatestRate env b t with ⟨res, tr⟩
    rw [hcl2] at hct
    dsimp at hct
    subst hct
    intro he
    cases res with
    | ok rate => simp at he
    | error e' =>
      simp at he
      subst he
      rw [getLatest_miss_clientErr r env b t eg c e' _ hm hcl hcl2]
      exact ⟨rfl, rfl, rfl⟩
  · intro eg hm
    rw [getHist_miss r env b t d eg c hm hcl]
    exact ⟨rfl, rfl, rfl⟩

/-- Witness for the amended C2 at concrete inputs. -/
theorem spec_C2_amended_witness :
    (repoDown.GetLatestRate httpDownEnv "USD" "EUR").1 =
      .error (.wrapped "failed to make request" (.errorf "dial tcp: connection refused")) ∧
    (repoDown.GetHistoricalRate httpDownEnv "USD" "EUR" ⟨2024, 2, 1⟩).1 =
      .error (.errorf "historical rates not supported by open.er-api.com in free tier") := by
  have h := spec_C2_amended repoDown httpDownEnv "USD" "EUR" ⟨2024, 2, 1⟩ clientW rfl
  have h1 := h.1 (.errorf "connection refused")
    (.wrapped "failed to make request" (.errorf "dial tcp: connection refused")) rfl rfl
  have h2 := h.2 (.errorf "connection refused") rfl
  exact ⟨h1.1, h2.1⟩

/-- Counterexample to C8 as stated: the client's `GetHistoricalRate` failure
is a generic `fmt.Errorf` error, not a typed/distinguishable "unsupported"
failure (no such kind exists in the `ErrorType` taxonomy; callers can only
distinguish it by parsing the message text). -/
theorem spec_C8_counterexample :
    (clientW.GetHistoricalRate httpOkEnv "USD" "EUR" ⟨2024, 2, 1⟩).1 =
      .error (.errorf "historical rates not supported by open.er-api.com in free tier") ∧
    GoErr.isTyped
      (.errorf "historical rates not supported by open.er-api.com in free tier") = false := by
  exact ⟨rfl, rfl⟩

/-- C8 (amended): for every input, the provider client's `GetHistoricalRate`
returns a generic formatted error whose message says historical rates are
not supported by this provider in the free tier (with no network I/O); the
failure is not a typed error value distinguishable from a generic error. -/
theorem spec_C8_amended (c : OpenERAPIClient) (env : HttpEnv) (b t : String) (d : Date) :
    c.GetHistoricalRate env b t d =
      (.error (.errorf ("historical rates not supported by " ++ c.name ++ " in free tier")), []) ∧
    GoErr.isTyped
      (.errorf ("historical rates not supported by " ++ c.name ++ " in free tier")) = false := by
  exact ⟨rfl, rfl⟩

/-- C9: the provider client's `GetHistoricalRate` fails unconditionally with
no I/O, so the coordinator's `GetHistoricalRate` succeeds exactly when the
cache Get on the historical key succeeds, fails with the client's
not-supported error on every cold-cache request, and never reaches its
cache-write branch (no Set, no HTTP on its own fetch path). -/
theorem spec_C9 (r : RateRepository) (env : HttpEnv) (b t : String) (d : Date)
    (c : OpenERAPIClient) (hcl : r.client = some c) :
    c.GetHistoricalRate env b t d =
      (.error (.errorf ("historical rates not supported by " ++ c.name ++ " in free tier")), []) ∧
    (∀ rate, r.cache.getHist (historicalRateKey b t d) = .ok rate →
      (r.GetHistoricalRate env b t d).1 = .ok rate) ∧
    (∀ eg, r.cache.getHist (historicalRateKey b t d) = .error eg →
      (r.GetHistoricalRate env b t d).1 =
        .error (.errorf ("historical rates not supported by " ++ c.name ++ " in free tier"))) ∧
    (r.GetHistoricalRate env b t d).2.filter Event.isCacheSet = [] ∧
    (r.GetHistoricalRate env b t d).2.filter Event.isHttpGet = [] := by
  refine ⟨rfl, ?_, ?_, ?_, ?_⟩
  · intro rate hm
    rw [getHist_hit r env b t d rate hm]
  · intro eg hm
    rw [getHist_miss r env b t d eg c hm hcl]
  · cases hm : r.cache.getHist (historicalRateKey b t d) with
    | ok rate => rw [getHist_hit r env b t d rate hm]; rfl
    | error eg => rw [getHist_miss r env b t d eg c hm hcl]; rfl
  · cases hm : r.cache.getHist (historicalRateKey b t d) with
    | ok rate => rw [getHist_hit r env b t d rate hm]; rfl
    | error eg => rw [getHist_miss r env b t d eg c hm hcl]; rfl

/-- Witness for C9 at concrete inputs: a warm cache serves the historical
rate, a cold cache fails with the not-supported error. -/
theorem spec_C9_witness :
    (repoHit.GetHistoricalRate httpOkEnv "USD" "EUR" ⟨2024, 2, 1⟩).1 = .ok histUSDEUR ∧
    (repoMiss.GetHistoricalRate httpOkEnv "USD" "EUR" ⟨2024, 2, 1⟩).1 =
      .error (.errorf "historical rates not supported by open.er-api.com in free tier") := by
  have h1 := (spec_C9 repoHit httpOkEnv "USD" "EUR" ⟨2024, 2, 1⟩ clientW rfl).2.1 histUSDEUR rfl
  have h2 := (spec_C9 repoMiss httpOkEnv "USD" "EUR" ⟨2024, 2, 1⟩ clientW rfl).2.2.1
    (.errorf "key not found") rfl
  exact ⟨h1, h2⟩

/-- Requests with equal from/to currencies always fail
`validateConversionRequest` with some validation error. -/
theorem validate_conv_same (req : ConversionRequest)
    (h : req.fromCurrency = req.toCurrency) :
    ∃ m d, validateConversionRequest req = some (NewValidationError m d) := by
  unfold validateConversionRequest
  split_ifs <;> exact ⟨_, _, rfl⟩

/-- Requests with a non-positive amount always fail
`validateConversionRequest` with some validation error. -/
theorem validate_conv_nonpos (req : ConversionRequest) (h : req.amount ≤ 0) :
    ∃ m d, validateConversionRequest req = some (NewValidationError m d) := by
  unfold validateConversionRequest
  split_ifs <;> exact ⟨_, _, rfl⟩

/-- Equal currencies always fail `validateCurrencies` with some validation
error. -/
theorem validate_curr_same (b : String) :
    ∃ m d, validateCurrencies b b = some (NewValidationError m d) := by
  unfold validateCurrencies
  split_ifs with h1 h2
  · exact ⟨_, _, rfl⟩
  · exact ⟨_, _, rfl⟩
  · exact absurd rfl h2

/-- A failed validation short-circuits `GetLatestRate` before the repository
is touched. -/
theorem service_getLatest_invalid (repo : RepoI) (b t : String) (e : GoErr)
    (hv : validateCurrencies b t = some e) :
    ExchangeService.GetLatestRate repo b t = (.error e, []) := by
  unfold ExchangeService.GetLatestRate
  rw [hv]

/-- A failed validation short-circuits `ConvertCurrency` before the
repository is touched. -/
theorem service_convert_invalid (repo : RepoI) (req : ConversionRequest) (e : GoErr)
    (hv : validateConversionRequest req = some e) :
    ExchangeService.ConvertCurrency repo req = (.error e, []) := by
  unfold ExchangeService.ConvertCurrency
  rw [hv]

/-- A service interface built over a warm repository, used for concrete
witnesses. -/
def repoIHit : RepoI :=
  { getLatestRate := fun _ _ => (.ok rateUSDEUR, [.cacheGet "k"])
    getHistoricalRate := fun _ _ _ => (.ok histUSDEUR, [.cacheGet "kh"])
    getSupportedCurrencies := fun _ => (.ok [], [])
    healthCheck := fun _ => (.ok (fun _ => none), []) }

/-- C3: equal base/target currencies make `GetLatestRate` and
`ConvertCurrency` fail with a ValidationError before the repository is
invoked (empty trace); a non-positive amount makes `ConvertCurrency` fail
with a ValidationError before the repository is invoked; a historical-range
request whose end date precedes its start date is rejected by the endpoint
before any service/cache/provider access. -/
theorem spec_C3 :
    (∀ (repo : RepoI) (b t : String), b = t →
      failsValidation (ExchangeService.GetLatestRate repo b t).1 = true ∧
      (ExchangeService.GetLatestRate repo b t).2 = []) ∧
    (∀ (repo : RepoI) (req : ConversionRequest), req.fromCurrency = req.toCurrency →
      failsValidation (ExchangeService.ConvertCurrency repo req).1 = true ∧
      (ExchangeService.ConvertCurrency repo req).2 = []) ∧
    (∀ (repo : RepoI) (req : ConversionRequest), req.amount ≤ 0 →
      failsValidation (ExchangeService.ConvertCurrency repo req).1 = true ∧
      (ExchangeService.ConvertCurrency repo req).2 = []) ∧
    (∀ (svcHist : String → String → Date → Except GoErr HistoricalRate × List Event)
      (req : GetHistoricalRatesRequest) (s e : Date),
      parseDate req.startDate = .ok s → parseDate req.endDate = .ok e →
      e.before s = true →
      makeGetHistoricalRatesEndpoint svcHist req =
        ({ error := "end_date must be after start_date" }, [])) := by
  refine ⟨?_, ?_, ?_, ?_⟩
  · intro repo b t hbt
    subst hbt
    obtain ⟨m, d, hv⟩ := validate_curr_same b
    rw [service_getLatest_invalid repo b b _ hv]
    exact ⟨rfl, rfl⟩
  · intro repo req h
    obtain ⟨m, d, hv⟩ := validate_conv_same req h
    rw [service_convert_invalid repo req _ hv]
    exact ⟨rfl, rfl⟩
  · intro repo req h
    obtain ⟨m, d, hv⟩ := validate_conv_nonpos req h
    rw [service_convert_invalid repo req _ hv]
    exact ⟨rfl, rfl⟩
  · intro svcHist req s e h1 h2 h3
    unfold makeGetHistoricalRatesEndpoint
    simp [h1, h2, h3]

/-- Witness for C3 at the spec's concrete inputs: USD→USD latest and
conversion requests, amount 0, and the 2024-02-10 .. 2024-02-01 range. -/
theorem spec_C3_witness :
    (failsValidation (ExchangeService.GetLatestRate repoIHit "USD" "USD").1 = true ∧
      (ExchangeService.GetLatestRate repoIHit "USD" "USD").2 = []) ∧
    (failsValidation (ExchangeService.ConvertCurrency repoIHit
        { fromCurrency := "USD", toCurrency := "EUR",
          amount := (⟨0, 1, by decide, by decide⟩ : ℚ) }).1 = true ∧
      (ExchangeService.ConvertCurrency repoIHit
        { fromCurrency := "USD", toCurrency := "EUR",
          amount := (⟨0, 1, by decide, by decide⟩ : ℚ) }).2 = []) ∧
    makeGetHistoricalRatesEndpoint repoIHit.getHistoricalRate
      { fromCurrency := "USD", toCurrency := "EUR",
        startDate := "2024-02-10", endDate := "2024-02-01" } =
      ({ error := "end_date must be after start_date" }, []) := by
  refine ⟨spec_C3.1 repoIHit "USD" "USD" rfl, ?_, ?_⟩
  · exact spec_C3.2.2.1 repoIHit
      { fromCurrency := "USD", toCurrency := "EUR",
        amount := (⟨0, 1, by decide, by decide⟩ : ℚ) } (by decide)
  · exact spec_C3.2.2.2 repoIHit.getHistoricalRate
      { fromCurrency := "USD", toCurrency := "EUR",
        startDate := "2024-02-10", endDate := "2024-02-01" }
      ⟨2024, 2, 10⟩ ⟨2024, 2, 1⟩ (by decide) (by decide) (by decide)

/-- C4: for every valid conversion request whose rate resolves, the
response's converted amount is exactly `amount * rate`, and its rate,
provider and fetched-at fields are the resolved rate's fields verbatim
(both on the latest-rate path and on the dated historical path). -/
theorem spec_C4 (repo : RepoI) (req : ConversionRequest)
    (hv : validateConversionRequest req = none) :
    (∀ rate tr, req.date = "" →
      repo.getLatestRate req.fromCurrency req.toCurrency = (.ok rate, tr) →
      ExchangeService.ConvertCurrency repo req =
        (.ok { fromCurrency := req.fromCurrency, toCurrency := req.toCurrency,
               amount := req.amount, convertedAmount := req.amount * rate.rate,
               rate := rate.rate, provider := rate.provider,
               fetchedAt := rate.fetchedAt }, tr)) ∧
    (∀ d rate tr, req.date ≠ "" → parseLayoutYMD '-' req.date = some d →
      repo.getHistoricalRate req.fromCurrency req.toCurrency d = (.ok rate, tr) →
      ExchangeService.ConvertCurrency repo req =
        (.ok { fromCurrency := req.fromCurrency, toCurrency := req.toCurrency,
               amount := req.amount, convertedAmount := req.amount * rate.rate,
               rate := rate.rate, provider := rate.provider,
               fetchedAt := rate.fetchedAt }, tr)) := by
  constructor
  · intro rate tr hdate hrepo
    unfold ExchangeService.ConvertCurrency
    simp [hv, hdate, hrepo]
  · intro d rate tr hdate hparse hrepo
    unfold ExchangeService.ConvertCurrency
    simp [hv, hdate, hparse, hrepo]

/-- Witness for C4 at the spec's concrete inputs: rate 0.92 USD→EUR, amount
100 — the response carries `100 * 0.92` and the resolved rate's provider and
fetch timestamp verbatim. -/
theorem spec_C4_witness :
    ExchangeService.ConvertCurrency repoIHit
      { fromCurrency := "USD", toCurrency := "EUR",
        amount := (⟨100, 1, by decide, by decide⟩ : ℚ) } =
      (.ok { fromCurrency := "USD", toCurrency := "EUR",
             amount := (⟨100, 1, by decide, by decide⟩ : ℚ),
             convertedAmount :=
               (⟨100, 1, by decide, by decide⟩ : ℚ) * rateUSDEUR.rate,
             rate := rateUSDEUR.rate, provider := rateUSDEUR.provider,
             fetchedAt := rateUSDEUR.fetchedAt }, [.cacheGet "k"]) := by
  exact (spec_C4 repoIHit
    { fromCurrency := "USD", toCurrency := "EUR",
      amount := (⟨100, 1, by decide, by decide⟩ : ℚ) } (by decide)).1
    rateUSDEUR [.cacheGet "k"] rfl rfl

/-- C5: the repository health check evaluates each dependency
independently: the returned map carries `"cache"` ↦ healthy iff the cache
Ping succeeded, the provider's name ↦ healthy iff its lightweight health
request succeeded (neither masking the other), and an absent client yields
`"open.er-api.com"` ↦ `"unconfigured"`; the result is a map, never a single
boolean. -/
theorem spec_C5 (r : RateRepository) (env : HttpEnv)
    (hn : ∀ c0, r.client = some c0 → c0.name ≠ "cache") :
    ∀ m tr, r.HealthCheck env = (.ok m, tr) →
      m "cache" = some (if isOkB r.cache.ping then "healthy" else "unhealthy") ∧
      (∀ c, r.client = some c →
        m c.name = some (if isOkB (c.HealthCheck env).1 then "healthy" else "unhealthy")) ∧
      (r.client = none → m "open.er-api.com" = some "unconfigured") := by
  intro m tr h
  unfold RateRepository.HealthCheck at h
  dsimp only at h
  cases hc : r.client with
  | none =>
    rw [hc] at h
    cases hping : r.cache.ping with
    | ok u =>
      cases u
      simp only [hping] at h
      simp only [Prod.mk.injEq, Except.ok.injEq] at h
      obtain ⟨hm, htr⟩ := h
      subst hm
      refine ⟨by decide, ?_, fun _ => by decide⟩
      intro c hcc
      simp at hcc
    | error ep =>
      simp only [hping] at h
      simp only [Prod.mk.injEq, Except.ok.injEq] at h
      obtain ⟨hm, htr⟩ := h
      subst hm
      refine ⟨by simp [mapInsert, isOkB], ?_, fun _ => by decide⟩
      intro c hcc
      simp at hcc
  | some c =>
    rw [hc] at h
    dsimp only at h
    have hcname : ¬ ("cache" = c.name) := fun hh => hn c hc hh.symm
    rcases hch : c.HealthCheck env with ⟨res, trc⟩
    simp only [hch] at h
    cases hping : r.cache.ping with
    | ok u =>
      cases u
      simp only [hping] at h
      cases res with
      | ok u2 =>
        cases u2
        simp only [Prod.mk.injEq, Except.ok.injEq] at h
        obtain ⟨hm, htr⟩ := h
        subst hm
        refine ⟨by simp [mapInsert, hcname, isOkB], ?_, ?_⟩
        · intro c2 hcc
          injection hcc with hc2
          subst hc2
          rw [hch]
          simp [mapInsert, isOkB]
        · intro hcc
          simp at hcc
      | error e2 =>
        simp only [Prod.mk.injEq, Except.ok.injEq] at h
        obtain ⟨hm, htr⟩ := h
        subst hm
        refine ⟨by simp [mapInsert, hcname, isOkB], ?_, ?_⟩
        · intro c2 hcc
          injection hcc with hc2
          subst hc2
          rw [hch]
          simp [mapInsert, isOkB]
        · intro hcc
          simp at hcc
    | error ep =>
      simp only [hping] at h
      cases res with
      | ok u2 =>
        cases u2
        simp only [Prod.mk.injEq, Except.ok.injEq] at h
        obtain ⟨hm, htr⟩ := h
        subst hm
        refine ⟨by simp [mapInsert, hcname, isOkB], ?_, ?_⟩
        · intro c2 hcc
          injection hcc with hc2
          subst hc2
          rw [hch]
          simp [mapInsert, isOkB]
        · intro hcc
          simp at hcc
      | error e2 =>
        simp only [Prod.mk.injEq, Except.ok.injEq] at h
        obtain ⟨hm, htr⟩ := h
        subst hm
        refine ⟨by simp [mapInsert, hcname, isOkB], ?_, ?_⟩
        · intro c2 hcc
          injection hcc with hc2
          subst hc2
          rw [hch]
          simp [mapInsert, isOkB]
        · intro hcc
          simp at hcc

/-- Witness for C5 at the spec's scenario: provider reachable, cache not —
the map reports cache=unhealthy and provider=healthy independently. -/
theorem spec_C5_witness :
    mapInsert (mapInsert (fun _ => none) "cache" "unhealthy") "open.er-api.com" "healthy"
      "cache" = some "unhealthy" ∧
    mapInsert (mapInsert (fun _ => none) "cache" "unhealthy") "open.er-api.com" "healthy"
      "open.er-api.com" = some "healthy" := by
  have h := spec_C5 repoDown httpOkEnv
    (by
      intro c0 hc0
      rw [show repoDown.client = some clientW from rfl] at hc0
      injection hc0 with h0
      subst h0
      decide)
    (mapInsert (mapInsert (fun _ => none) "cache" "unhealthy") "open.er-api.com" "healthy")
    [.cachePing, .providerHealthCall, .httpGet "https://open.er-api.com/v6/latest/USD"] rfl
  exact ⟨h.1, h.2.1 clientW rfl⟩

/-- C10: whenever the repository health check returns without error, the
service-level response has constant overall `Status = "healthy"` and
`Cache = "connected"`, regardless of the per-dependency statuses carried in
the providers map. -/
theorem spec_C10 (repo : RepoI) (m : String → Option String) (tr : List Event) (now : Nat)
    (h : repo.healthCheck () = (.ok m, tr)) :
    ExchangeService.HealthCheck repo now =
      (.ok { status := "healthy", timestamp := now, providers := m,
             cache := "connected" }, tr) := by
  unfold ExchangeService.HealthCheck
  rw [h]

/-- A dependency map reporting both the cache and the provider unhealthy. -/
def unhealthyMap : String → Option String :=
  mapInsert (mapInsert (fun _ => none) "cache" "unhealthy") "open.er-api.com" "unhealthy"

def repoIUnhealthy : RepoI :=
  { getLatestRate := fun _ _ => (.error (.errorf "down"), [])
    getHistoricalRate := fun _ _ _ => (.error (.errorf "down"), [])
    getSupportedCurrencies := fun _ => (.error (.errorf "down"), [])
    healthCheck := fun _ => (.ok unhealthyMap, [.cachePing]) }

/-- Witness for C10: even with every dependency reported unhealthy, the
overall status is the constant "healthy" and the cache field "connected". -/
theorem spec_C10_witness :
    ExchangeService.HealthCheck repoIUnhealthy 99 =
      (.ok { status := "healthy", timestamp := 99, providers := unhealthyMap,
             cache := "connected" }, [.cachePing]) :=
  spec_C10 repoIUnhealthy unhealthyMap [.cachePing] 99 rfl

/-- Witness for C7 at concrete inputs: the Set the coordinator performs on a
latest-rate miss carries 300000000000 ns (5 min); the one on a currency-list
miss carries 86400000000000 ns (24 h). -/
theorem spec_C7_witness :
    (300000000000 : Nat) = latestRateTTL ∧ (86400000000000 : Nat) = currenciesTTL := by
  have h1 := spec_C7 repoMiss httpOkEnv "USD" "EUR" ⟨2024, 2, 1⟩
    (latestRateKey "USD" "EUR") 300000000000
  have h2 := spec_C7 repoMiss httpOkEnv "USD" "EUR" ⟨2024, 2, 1⟩ currenciesKey 86400000000000
  exact ⟨h1.2.2.2.2.2.1 (by decide), h2.2.2.2.2.2.2.2 (by decide)⟩
